import Mathlib

/-!
# canis-lupus-arctos: the risk store and its HTTP handler layer

A shallow embedding of `store/store.go` and `server/server.go`.

Conventions of the embedding

* `github.com/google/uuid` is an external library.  Its identifier type is the
  type parameter `U`; the three things the repository uses from it
  (`uuid.Nil` as the zero value of a `Risk`, `UUID.String`, `uuid.Parse`) are
  the fields of `UUIDLib`.  `uuid.New()` is random: the identifier it returns
  is an explicit argument of `MemoryStore.CreateRisk`.
* A Go `map[string]Risk` is either the nil map or a made map, a finite map
  with unique keys (`AList`).  A read of the nil map finds nothing, a `range`
  over it visits nothing, an assignment to one of its entries panics.  The
  order in which `range` visits a map is chosen by the runtime: it is the
  explicit argument `RangeOrder` of `MemoryStore.GetRiskList`.
* A call of a store method ends in a `Call`: it returns a value and an error
  (`none` for a nil error), or it panics.
-/

namespace Arctos

/-- What the repository uses from `github.com/google/uuid`, for an identifier
type `U`: the zero identifier, the canonical string form and the parser. -/
structure UUIDLib (U : Type) where
  /-- The value `uuid.Nil`, the zero value of `uuid.UUID`. -/
  Nil : U
  /-- The method `UUID.String`. -/
  toStr : U → String
  /-- The function `uuid.Parse`; `none` stands for a non-nil error. -/
  Parse : String → Option U

namespace store

/-- The struct `store.Risk`. -/
structure Risk (U : Type) where
  ID : U
  State : String
  Title : String
  Description : String
deriving DecidableEq, Repr

/-- Values of Go's `error` returned by a store: the two package variables and,
for other implementations of the store interface, any other error. -/
inductive Err where
  | ErrNotFound
  | ErrAlreadyExists
  | other (msg : String)
deriving DecidableEq, Repr

/-- The text of an error (`errors.New` argument). -/
def Err.Error : Err → String
  | .ErrNotFound => "risk not found"
  | .ErrAlreadyExists => "risk already exists"
  | .other msg => msg

/-- The outcome of a call of a store method on a store in state `σ`: it
returns a value and an error, or it panics; either way the store has a state
afterwards. -/
inductive Call (α σ : Type) where
  | ret (val : α) (err : Option Err) (s : σ)
  | panics (s : σ)

/-- The store after the call. -/
def Call.store {α σ : Type} : Call α σ → σ
  | .ret _ _ s => s
  | .panics s => s

/-- The value of a call that returned with a nil error; `none` when it
returned a non-nil error or panicked. -/
def Call.ok {α σ : Type} : Call α σ → Option α
  | .ret val none _ => some val
  | .ret _ (some _) _ => none
  | .panics _ => none

/-- The Go type `map[string]Risk`: the nil map (the zero value of the type) or
a map made by `make`. -/
inductive RiskMap (U : Type) where
  | nil
  | made (m : AList (fun _ : String => Risk U))

/-- The read `m[k]` with the comma-ok form; the nil map has no entry. -/
def RiskMap.lookup {U : Type} (m : RiskMap U) (k : String) : Option (Risk U) :=
  match m with
  | .nil => none
  | .made a => a.lookup k

/-- The entries of a map; the nil map has none. -/
def RiskMap.entries {U : Type} : RiskMap U → List (Σ _ : String, Risk U)
  | .nil => []
  | .made a => a.entries

/-- The keys of a map. -/
def RiskMap.keys {U : Type} : RiskMap U → List String
  | .nil => []
  | .made a => a.keys

/-- The struct `store.MemoryStore`. -/
structure MemoryStore (U : Type) where
  riskMap : RiskMap U

/-- The composite literal `Risk{}`. -/
def zeroRisk {U : Type} (lib : UUIDLib U) : Risk U :=
  { ID := lib.Nil, State := "", Title := "", Description := "" }

/-- `NewMemoryStore`: a store whose map is made and holds no record. -/
def NewMemoryStore {U : Type} : MemoryStore U :=
  { riskMap := RiskMap.made ∅ }

/-- The composite literal `MemoryStore{}`, which any importer of the package
can write: the zero value, whose `riskMap` is the nil map. -/
def MemoryStore.zero {U : Type} : MemoryStore U :=
  { riskMap := RiskMap.nil }

/-- `MemoryStore.CreateRisk`; `newID` is the value returned by `uuid.New()`.
The assignment `ms.riskMap[idStr] = r` panics when the map is nil. -/
def MemoryStore.CreateRisk {U : Type} (lib : UUIDLib U) (ms : MemoryStore U) (newID : U)
    (state title desc : String) : Call (Risk U) (MemoryStore U) :=
  let r : Risk U := { ID := newID, State := state, Title := title, Description := desc }
  let idStr := lib.toStr r.ID
  match ms.riskMap.lookup idStr with
  | some _ => Call.ret (zeroRisk lib) (some Err.ErrAlreadyExists) ms
  | none =>
    match ms.riskMap with
    | RiskMap.nil => Call.panics ms
    | RiskMap.made m => Call.ret r none { riskMap := RiskMap.made (m.insert idStr r) }

/-- `MemoryStore.GetRisk`. -/
def MemoryStore.GetRisk {U : Type} (lib : UUIDLib U) (ms : MemoryStore U) (id : String) :
    Call (Risk U) (MemoryStore U) :=
  match ms.riskMap.lookup id with
  | none => Call.ret (zeroRisk lib) (some Err.ErrNotFound) ms
  | some r => Call.ret r none ms

/-- The runtime's choice of the order in which `range` visits the entries of a
map: every entry exactly once. -/
structure RangeOrder (U : Type) where
  visit : List (Σ _ : String, Risk U) → List (Σ _ : String, Risk U)
  perm : ∀ l, (visit l).Perm l

/-- `MemoryStore.GetRiskList`: the loop appends the value of every visited
entry to `risks`, which starts as the nil slice. -/
def MemoryStore.GetRiskList {U : Type} (ms : MemoryStore U) (ord : RangeOrder U) :
    Call (List (Risk U)) (MemoryStore U) :=
  Call.ret ((ord.visit ms.riskMap.entries).foldl (fun risks kv => risks ++ [kv.2]) []) none ms

/-- One `CreateRisk` call: the identifier the generator produced and the three
arguments. -/
structure CreateCall (U : Type) where
  newID : U
  state : String
  title : String
  desc : String

/-- The record a successful call stores. -/
def CreateCall.risk {U : Type} (c : CreateCall U) : Risk U :=
  { ID := c.newID, State := c.state, Title := c.title, Description := c.desc }

/-- Run a sequence of `CreateRisk` calls in order, collecting how each call
ended; the next call runs on the store the previous one left. -/
def runCreates {U : Type} (lib : UUIDLib U) :
    MemoryStore U → List (CreateCall U) →
      List (Call (Risk U) (MemoryStore U)) × MemoryStore U
  | ms, [] => ([], ms)
  | ms, c :: cs =>
    let res := ms.CreateRisk lib c.newID c.state c.title c.desc
    let rest := runCreates lib res.store cs
    (res :: rest.1, rest.2)

/-- Store states reachable from `NewMemoryStore` by `CreateRisk` calls, whatever
identifiers the generator produces. -/
inductive Reachable {U : Type} (lib : UUIDLib U) : MemoryStore U → Prop where
  | new : Reachable lib NewMemoryStore
  | create (ms : MemoryStore U) (newID : U) (state title desc : String) :
      Reachable lib ms → Reachable lib (ms.CreateRisk lib newID state title desc).store

/-- Every key of the map is the string form of the ID of the record under it. -/
def WellKeyed {U : Type} (lib : UUIDLib U) (ms : MemoryStore U) : Prop :=
  ∀ k r, ms.riskMap.lookup k = some r → k = lib.toStr r.ID

end store

namespace server

open store

/-- The struct `risk`: the serialized form of a record, with the JSON tags
`id`, `state`, `title,omitempty`, `description,omitempty`. -/
structure risk where
  ID : String
  State : String
  Title : String
  Description : String
deriving DecidableEq, Repr

/-- A JSON object whose values are strings: its members, in the order the
encoder emits them. -/
abbrev Object := List (String × String)

/-- The JSON values the handlers encode: one record or an array of records. -/
inductive Value where
  | object (o : Object)
  | array (os : List Object)
deriving DecidableEq, Repr

/-- What `encoding/json` emits for a `risk` under its struct tags: `id` and
`state` always, `title` and `description` only when non-empty (`omitempty`). -/
def risk.marshal (r : risk) : Object :=
  [("id", r.ID), ("state", r.State)]
    ++ (if r.Title = "" then [] else [("title", r.Title)])
    ++ (if r.Description = "" then [] else [("description", r.Description)])

/-- The argument `v any` of `jsonResponse` as the handlers use it: a `risk` or
a `[]risk`. -/
inductive Payload where
  | one (r : risk)
  | many (rs : List risk)
deriving DecidableEq, Repr

/-- The JSON value of a payload. -/
def Payload.marshal : Payload → Value
  | .one r => Value.object r.marshal
  | .many rs => Value.array (rs.map risk.marshal)

/-- One write to the response body: raw text (`fmt.Fprintf`, `fmt.Fprintln`)
or the line `json.Encoder.Encode` writes for a value. -/
inductive Chunk where
  | text (s : String)
  | json (v : Value)
deriving DecidableEq, Repr

/-- An `http.ResponseWriter`: the header map, the status line once written
together with the header sent with it, and the body written so far. -/
structure ResponseWriter where
  header : List (String × String)
  status : Option Nat
  sent : List (String × String)
  body : List Chunk
deriving DecidableEq, Repr

/-- A fresh response writer. -/
def ResponseWriter.new : ResponseWriter :=
  { header := [], status := none, sent := [], body := [] }

/-- The call `w.Header().Set(k, v)`. -/
def ResponseWriter.HeaderSet (w : ResponseWriter) (k v : String) : ResponseWriter :=
  { w with header := (k, v) :: w.header.filter (fun kv => kv.1 ≠ k) }

/-- The call `w.WriteHeader(code)`: the first call fixes the status and sends
the header; a later call has no effect. -/
def ResponseWriter.WriteHeader (w : ResponseWriter) (code : Nat) : ResponseWriter :=
  match w.status with
  | some _ => w
  | none => { w with status := some code, sent := w.header }

/-- A write to the body; it sends status 200 first when no status was written. -/
def ResponseWriter.Write (w : ResponseWriter) (c : Chunk) : ResponseWriter :=
  let w1 := w.WriteHeader 200
  { w1 with body := w1.body ++ [c] }

/-- `http.StatusOK` and the other status codes used. -/
def StatusOK : Nat := 200
def StatusCreated : Nat := 201
def StatusBadRequest : Nat := 400
def StatusNotFound : Nat := 404
def StatusInternalServerError : Nat := 500

/-- The text `fmt.Fprintf(w, "{\"error\": \"%s\"}", msg)` writes. -/
def errorBody (msg : String) : String :=
  "\x7b\"error\": \"" ++ msg ++ "\"\x7d"

/-- `errResponse`. -/
def errResponse (w : ResponseWriter) (msg : String) (code : Nat) : ResponseWriter :=
  let w1 := w.HeaderSet "Content-Type" "application/json"
  let w2 := w1.WriteHeader code
  w2.Write (Chunk.text (errorBody msg))

/-- `jsonResponse`; `encErr` tells whether `Encode` returned an error, in which
case it wrote nothing. -/
def jsonResponse (w : ResponseWriter) (v : Payload) (code : Nat) (encErr : Bool) :
    ResponseWriter :=
  let w1 := w.HeaderSet "Content-Type" "application/json"
  let w2 := w1.WriteHeader code
  if encErr then errResponse w2 "internal server error" StatusInternalServerError
  else w2.Write (Chunk.json v.marshal)

/-- The standard library's `http.Error`: a plain-text reply, the message
followed by a newline. -/
def httpError (w : ResponseWriter) (msg : String) (code : Nat) : ResponseWriter :=
  let w1 := w.HeaderSet "Content-Type" "text/plain; charset=utf-8"
  let w2 := w1.HeaderSet "X-Content-Type-Options" "nosniff"
  let w3 := w2.WriteHeader code
  w3.Write (Chunk.text (msg ++ "\n"))

/-- The interface `RiskStore`, for an implementation whose state has type `σ`. -/
structure RiskStore (σ U : Type) where
  CreateRisk : σ → String → String → String → Call (Risk U) σ
  GetRisk : σ → String → Call (Risk U) σ
  GetRiskList : σ → Call (List (Risk U)) σ

/-- How running a handler ends: it returns, or a panic leaves it. -/
inductive Exec (σ : Type) where
  | done (w : ResponseWriter) (s : σ)
  | panicked (w : ResponseWriter) (s : σ)

/-- The response writer at the end of a run. -/
def Exec.writer {σ : Type} : Exec σ → ResponseWriter
  | .done w _ => w
  | .panicked w _ => w

/-- The store at the end of a run. -/
def Exec.store {σ : Type} : Exec σ → σ
  | .done _ s => s
  | .panicked _ s => s

/-- A handler once its request is fixed. -/
abbrev Handler (σ : Type) := ResponseWriter → σ → Exec σ

/-- The struct `input` of `handleCreateRisk`. -/
structure input where
  State : String
  Title : String
  Description : String
deriving DecidableEq, Repr

/-- The result of `json.NewDecoder(r.Body).Decode(&in)`: the decoded input, the
error `io.EOF`, or another error. -/
inductive Decoded where
  | ok (i : input)
  | eof
  | invalid
deriving DecidableEq, Repr

/-- The slice `states` of `handleCreateRisk`. -/
def states : List String := ["open", "closed", "accepted", "investigating"]

/-- The string `invalidMessage` of `handleCreateRisk`. -/
def invalidMessage : String :=
  "state must be one of [" ++ ", ".intercalate states ++ "]"

/-- The conversion of a `store.Risk` to a `risk` the three handlers share. -/
def toRisk {U : Type} (lib : UUIDLib U) (out : Risk U) : risk :=
  { ID := lib.toStr out.ID, State := out.State, Title := out.Title,
    Description := out.Description }

/-- `handleCreateRisk`; `body` is the outcome of decoding the request body. -/
def handleCreateRisk {σ U : Type} (lib : UUIDLib U) (rs : RiskStore σ U) (body : Decoded)
    (encErr : Bool) : Handler σ := fun w s =>
  match body with
  | .eof => .done (errResponse w "missing body" StatusBadRequest) s
  | .invalid => .done (errResponse w "invalid request" StatusBadRequest) s
  | .ok i =>
    if i.State = "" then
      .done (errResponse w "state required" StatusBadRequest) s
    else if !states.contains i.State then
      .done (errResponse w invalidMessage StatusBadRequest) s
    else
      match rs.CreateRisk s i.State i.Title i.Description with
      | .panics s1 => .panicked w s1
      | .ret _ (some _) s1 =>
        .done (errResponse w "internal server error" StatusInternalServerError) s1
      | .ret out none s1 =>
        .done (jsonResponse w (Payload.one (toRisk lib out)) StatusCreated encErr) s1

/-- `handleGetRisk`; `id` is `r.PathValue("id")`. -/
def handleGetRisk {σ U : Type} (lib : UUIDLib U) (rs : RiskStore σ U) (id : String)
    (encErr : Bool) : Handler σ := fun w s =>
  match lib.Parse id with
  | none => .done (errResponse w "invalid risk id" StatusBadRequest) s
  | some uid =>
    match rs.GetRisk s (lib.toStr uid) with
    | .panics s1 => .panicked w s1
    | .ret _ (some _) s1 => .done (errResponse w "risk not found" StatusNotFound) s1
    | .ret out none s1 =>
      .done (jsonResponse w (Payload.one (toRisk lib out)) StatusOK encErr) s1

/-- `handleGetRiskList`. -/
def handleGetRiskList {σ U : Type} (lib : UUIDLib U) (rs : RiskStore σ U)
    (encErr : Bool) : Handler σ := fun w s =>
  match rs.GetRiskList s with
  | .panics s1 => .panicked w s1
  | .ret _ (some _) s1 =>
    .done (errResponse w "internal server error" StatusInternalServerError) s1
  | .ret risks none s1 =>
    let out := risks.foldl (fun out r => out ++ [toRisk lib r]) []
    .done (jsonResponse w (Payload.many out) StatusOK encErr) s1

/-- `dontPanic`: a panic of `h` is recovered and answered with `http.Error`
(the log line is not part of the response). -/
def dontPanic {σ : Type} (h : Handler σ) : Handler σ := fun w s =>
  match h w s with
  | .done w1 s1 => .done w1 s1
  | .panicked w1 s1 =>
    .done (httpError w1 "internal server error" StatusInternalServerError) s1

/-- `requestLogger`: it logs before and after `h` and does not touch the
response. -/
def requestLogger {σ : Type} (h : Handler σ) : Handler σ := fun w s => h w s

/-- A request as the routes of `addRoutes` dispatch it. -/
inductive Request where
  | postRisk (body : Decoded)
  | getRiskList
  | getRisk (id : String)
deriving DecidableEq, Repr

/-- `addRoutes`: the handler each route is bound to. -/
def route {σ U : Type} (lib : UUIDLib U) (rs : RiskStore σ U) (encErr : Bool) :
    Request → Handler σ
  | .postRisk body => requestLogger (dontPanic (handleCreateRisk lib rs body encErr))
  | .getRiskList => requestLogger (dontPanic (handleGetRiskList lib rs encErr))
  | .getRisk id => requestLogger (dontPanic (handleGetRisk lib rs id encErr))

/-- Serving one request with a fresh response writer. -/
def serve {σ U : Type} (lib : UUIDLib U) (rs : RiskStore σ U) (encErr : Bool)
    (req : Request) (s : σ) : Exec σ :=
  route lib rs encErr req ResponseWriter.new s

/-- What the environment decides while one request is served: the identifier
`uuid.New()` returns, the order `range` visits the map in, and whether
`Encode` fails. -/
structure Env (U : Type) where
  newID : U
  ord : RangeOrder U
  encErr : Bool

/-- A `*store.MemoryStore` as a `RiskStore`, as `main` passes it to `run`. -/
def memoryStore {U : Type} (lib : UUIDLib U) (newID : U) (ord : RangeOrder U) :
    RiskStore (MemoryStore U) U where
  CreateRisk := fun ms state title desc => ms.CreateRisk lib newID state title desc
  GetRisk := fun ms id => ms.GetRisk lib id
  GetRiskList := fun ms => ms.GetRiskList ord

/-- Serving one request against a memory store. -/
def serveMem {U : Type} (lib : UUIDLib U) (ms : MemoryStore U) (ev : Request × Env U) :
    Exec (MemoryStore U) :=
  serve lib (memoryStore lib ev.2.newID ev.2.ord) ev.2.encErr ev.1 ms

/-- The store after serving a sequence of requests one after the other. -/
def serveAll {U : Type} (lib : UUIDLib U) (ms : MemoryStore U) :
    List (Request × Env U) → MemoryStore U
  | [] => ms
  | ev :: evs => serveAll lib (serveMem lib ms ev).store evs

/-- A response body that is the single-key object written by `errResponse`:
one write of the text `{"error": "<message>"}`. -/
def IsErrorObject (body : List Chunk) : Prop :=
  ∃ msg : String, body = [Chunk.text (errorBody msg)]

/-- A complete JSON response: the status `code` sent together with the header
`Content-Type: application/json`, and a body written in one piece. -/
def reply (code : Nat) (c : Chunk) : ResponseWriter :=
  { header := [("Content-Type", "application/json")],
    status := some code,
    sent := [("Content-Type", "application/json")],
    body := [c] }

/-- The store holds a record whose ID is `uid`. -/
def Holds {U : Type} (ms : MemoryStore U) (uid : U) : Prop :=
  ∃ k r, ms.riskMap.lookup k = some r ∧ r.ID = uid

/-- No method of the store implementation panics. -/
def NoPanic {σ U : Type} (rs : RiskStore σ U) : Prop :=
  (∀ s a b c, ∀ s1, rs.CreateRisk s a b c ≠ Call.panics s1)
  ∧ (∀ s id, ∀ s1, rs.GetRisk s id ≠ Call.panics s1)
  ∧ (∀ s, ∀ s1, rs.GetRiskList s ≠ Call.panics s1)

/-- Every record of the store has an enumerated state. -/
def StatesValid {U : Type} (ms : MemoryStore U) : Prop :=
  ∀ k r, ms.riskMap.lookup k = some r → r.State ∈ states

end server

/-! ## A concrete identifier library and concrete stores, for evaluation -/

namespace demo

open store server

/-- A small identifier library: identifier `n` is written as `n` letters `a`,
and exactly the strings made of the letter `a` parse. -/
def lib : UUIDLib Nat where
  Nil := 0
  toStr := fun n => String.mk (List.replicate n 'a')
  Parse := fun s => if s.data.all (fun c => c == 'a') then some s.data.length else none

/-- The runtime visits the map in the order the entries are laid out. -/
def inOrder : RangeOrder Nat where
  visit := fun l => l
  perm := fun l => List.Perm.refl l

/-- The two records `setup` seeds the store with in `cmd_test.go`. -/
def seedCalls : List (CreateCall Nat) :=
  [⟨1, "open", "Risk 1", "Risk 1 description"⟩, ⟨2, "closed", "", ""⟩]

/-- The store `setup` returns when the generator produced 1 and then 2. -/
def seeded : MemoryStore Nat :=
  (runCreates lib NewMemoryStore seedCalls).2

/-- The zero value `&store.MemoryStore{}`, whose `riskMap` is nil, as a
`RiskStore`: a read of a nil map finds nothing, a `range` over it visits
nothing, and the assignment to an entry of a nil map in `CreateRisk` panics. -/
def zeroMemoryStore {U : Type} (lib : UUIDLib U) : RiskStore Unit U where
  CreateRisk := fun s _ _ _ => Call.panics s
  GetRisk := fun s _ => Call.ret (zeroRisk lib) (some Err.ErrNotFound) s
  GetRiskList := fun s => Call.ret [] none s

end demo

/-! ## Properties of the store -/

namespace store

variable {U : Type}

theorem createRisk_fresh (lib : UUIDLib U) (ms : MemoryStore U)
    (m : AList (fun _ : String => Risk U)) (u : U) (state title desc : String)
    (hm : ms.riskMap = RiskMap.made m) (h : m.lookup (lib.toStr u) = none) :
    ms.CreateRisk lib u state title desc =
      Call.ret ⟨u, state, title, desc⟩ none
        { riskMap := RiskMap.made (m.insert (lib.toStr u) ⟨u, state, title, desc⟩) } := by
  simp [MemoryStore.CreateRisk, hm, RiskMap.lookup, h]

theorem createRisk_taken (lib : UUIDLib U) (ms : MemoryStore U) (u : U) (state title desc : String)
    (r : Risk U) (h : ms.riskMap.lookup (lib.toStr u) = some r) :
    ms.CreateRisk lib u state title desc
      = Call.ret (zeroRisk lib) (some Err.ErrAlreadyExists) ms := by
  simp [MemoryStore.CreateRisk, h]

theorem createRisk_nil (lib : UUIDLib U) (ms : MemoryStore U) (u : U) (state title desc : String)
    (hm : ms.riskMap = RiskMap.nil) :
    ms.CreateRisk lib u state title desc = Call.panics ms := by
  simp [MemoryStore.CreateRisk, hm, RiskMap.lookup]

/-- The three ways a `CreateRisk` call can end. -/
theorem createRisk_cases (lib : UUIDLib U) (ms : MemoryStore U) (u : U)
    (state title desc : String) :
    (ms.riskMap = RiskMap.nil ∧ ms.CreateRisk lib u state title desc = Call.panics ms)
    ∨ (∃ r0, ms.riskMap.lookup (lib.toStr u) = some r0
        ∧ ms.CreateRisk lib u state title desc
            = Call.ret (zeroRisk lib) (some Err.ErrAlreadyExists) ms)
    ∨ (∃ m, ms.riskMap = RiskMap.made m ∧ m.lookup (lib.toStr u) = none
        ∧ ms.CreateRisk lib u state title desc
            = Call.ret ⟨u, state, title, desc⟩ none
                { riskMap := RiskMap.made (m.insert (lib.toStr u) ⟨u, state, title, desc⟩) }) := by
  cases hm : ms.riskMap with
  | nil => exact Or.inl ⟨rfl, createRisk_nil lib ms u state title desc hm⟩
  | made m =>
    right
    cases hl : m.lookup (lib.toStr u) with
    | some r0 =>
      left
      have hl2 : ms.riskMap.lookup (lib.toStr u) = some r0 := by
        rw [hm]; exact hl
      exact ⟨r0, hm ▸ hl2, createRisk_taken lib ms u state title desc r0 hl2⟩
    | none =>
      right
      exact ⟨m, rfl, hl, createRisk_fresh lib ms m u state title desc hm hl⟩

theorem lookup_made_insert (m : AList (fun _ : String => Risk U)) (k0 : String) (r0 : Risk U)
    (k : String) :
    (RiskMap.made (m.insert k0 r0)).lookup k
      = if k = k0 then some r0 else (RiskMap.made m).lookup k := by
  by_cases hk : k = k0
  · subst hk
    simp [RiskMap.lookup, AList.lookup_insert]
  · simp [RiskMap.lookup, hk, AList.lookup_insert_ne hk]

theorem not_mem_keys_iff (ms : MemoryStore U) (k : String) :
    k ∉ ms.riskMap.keys ↔ ms.riskMap.lookup k = none := by
  cases hm : ms.riskMap with
  | nil => simp [RiskMap.keys, RiskMap.lookup]
  | made m =>
    simp only [RiskMap.keys, RiskMap.lookup]
    rw [AList.lookup_eq_none, AList.mem_keys]

theorem lookup_after_create (lib : UUIDLib U) (ms : MemoryStore U) (u : U)
    (state title desc : String) (k : String) (r : Risk U)
    (h : (ms.CreateRisk lib u state title desc).store.riskMap.lookup k = some r) :
    ms.riskMap.lookup k = some r ∨ r = ⟨u, state, title, desc⟩ := by
  rcases createRisk_cases lib ms u state title desc with
    ⟨_, hc⟩ | ⟨r0, _, hc⟩ | ⟨m, hm, hl, hc⟩
  · rw [hc] at h; exact Or.inl h
  · rw [hc] at h; exact Or.inl h
  · rw [hc] at h
    simp only [Call.store, lookup_made_insert] at h
    by_cases hk : k = lib.toStr u
    · rw [if_pos hk] at h
      right
      cases h
      rfl
    · rw [if_neg hk] at h
      rw [hm]
      exact Or.inl h

theorem lookup_kept_by_create (lib : UUIDLib U) (ms : MemoryStore U) (u : U)
    (state title desc : String) (k : String) (r : Risk U)
    (h : ms.riskMap.lookup k = some r) :
    (ms.CreateRisk lib u state title desc).store.riskMap.lookup k = some r := by
  rcases createRisk_cases lib ms u state title desc with
    ⟨_, hc⟩ | ⟨r0, _, hc⟩ | ⟨m, hm, hl, hc⟩
  · rw [hc]; exact h
  · rw [hc]; exact h
  · rw [hc]
    simp only [Call.store, lookup_made_insert]
    have hk : k ≠ lib.toStr u := by
      intro hk
      rw [hm, hk] at h
      simp only [RiskMap.lookup] at h
      rw [hl] at h
      cases h
    rw [if_neg hk, ← hm]
    exact h

theorem wellKeyed_create (lib : UUIDLib U) (ms : MemoryStore U) (u : U) (state title desc : String)
    (h : WellKeyed lib ms) : WellKeyed lib (ms.CreateRisk lib u state title desc).store := by
  intro k r hk
  rcases lookup_after_create lib ms u state title desc k r hk with hold | hnew
  · exact h k r hold
  · rcases createRisk_cases lib ms u state title desc with
      ⟨_, hc⟩ | ⟨r0, _, hc⟩ | ⟨m, hm, hl, hc⟩
    · rw [hc] at hk; exact h k r hk
    · rw [hc] at hk; exact h k r hk
    · rw [hc] at hk
      simp only [Call.store, lookup_made_insert] at hk
      by_cases hku : k = lib.toStr u
      · rw [hku, hnew]
      · rw [if_neg hku, ← hm] at hk
        exact h k r hk

theorem wellKeyed_of_reachable (lib : UUIDLib U) (ms : MemoryStore U) (h : Reachable lib ms) :
    WellKeyed lib ms := by
  induction h with
  | new => intro k r hk; simp [NewMemoryStore, RiskMap.lookup] at hk
  | create ms u state title desc _ ih => exact wellKeyed_create lib ms u state title desc ih

theorem made_after_create (lib : UUIDLib U) (ms : MemoryStore U) (u : U)
    (state title desc : String) (h : ms.riskMap ≠ RiskMap.nil) :
    (ms.CreateRisk lib u state title desc).store.riskMap ≠ RiskMap.nil := by
  rcases createRisk_cases lib ms u state title desc with
    ⟨hn, _⟩ | ⟨r0, _, hc⟩ | ⟨m, hm, hl, hc⟩
  · exact absurd hn h
  · rw [hc]; exact h
  · rw [hc]; simp [Call.store]

theorem made_of_reachable (lib : UUIDLib U) (ms : MemoryStore U) (h : Reachable lib ms) :
    ms.riskMap ≠ RiskMap.nil := by
  induction h with
  | new => simp [NewMemoryStore]
  | create ms u state title desc _ ih => exact made_after_create lib ms u state title desc ih

theorem foldl_append_singleton {α β : Type} (f : α → β) (l : List α) (init : List β) :
    l.foldl (fun acc x => acc ++ [f x]) init = init ++ l.map f := by
  induction l generalizing init with
  | nil => simp
  | cons a t ih => simp [List.foldl_cons, ih]

theorem filterMap_some {α β : Type} (f : α → β) (l : List α) :
    l.filterMap (fun x => some (f x)) = l.map f := by
  induction l with
  | nil => rfl
  | cons a t ih => simp [List.filterMap_cons, ih]

theorem getRiskList_eq (ms : MemoryStore U) (ord : RangeOrder U) :
    ms.GetRiskList ord
      = Call.ret ((ord.visit ms.riskMap.entries).map (fun kv => kv.2)) none ms := by
  simp [MemoryStore.GetRiskList, foldl_append_singleton]

theorem runCreates_ok (lib : UUIDLib U) (calls : List (CreateCall U)) :
    ∀ (ms : MemoryStore U) (m : AList (fun _ : String => Risk U)),
      ms.riskMap = RiskMap.made m →
      (∀ res ∈ (runCreates lib ms calls).1, res.ok.isSome = true) →
      (runCreates lib ms calls).1.map Call.ok = calls.map (fun c => some c.risk) ∧
      (runCreates lib ms calls).2.riskMap.entries =
        (calls.map (fun c => (⟨lib.toStr c.newID, c.risk⟩ : Σ _ : String, Risk U))).reverse
          ++ m.entries := by
  induction calls with
  | nil => intro ms m hm _; simp [runCreates, hm, RiskMap.entries]
  | cons c cs ih =>
    intro ms m hm hok
    have hhead := hok (ms.CreateRisk lib c.newID c.state c.title c.desc) (by simp [runCreates])
    rcases createRisk_cases lib ms c.newID c.state c.title c.desc with
      ⟨_, hc⟩ | ⟨r0, _, hc⟩ | ⟨m1, hm1, hl, hc⟩
    · rw [hc] at hhead; simp [Call.ok] at hhead
    · rw [hc] at hhead; simp [Call.ok] at hhead
    · have hmm : m1 = m := by
        rw [hm] at hm1
        cases hm1
        rfl
      subst hmm
      have hrest : ∀ res ∈
          (runCreates lib (ms.CreateRisk lib c.newID c.state c.title c.desc).store cs).1,
          res.ok.isSome = true := by
        intro res hres
        exact hok res (by simp [runCreates, hres])
      rw [hc] at hrest
      obtain ⟨h1, h2⟩ := ih _ _ rfl hrest
      constructor
      · simp only [runCreates, List.map_cons, hc, Call.store]
        rw [h1]
        rfl
      · simp only [runCreates, hc, Call.store, List.map_cons, List.reverse_cons,
          List.append_assoc]
        rw [h2]
        simp only [List.singleton_append]
        rw [AList.insert_entries_of_neg (AList.lookup_eq_none.mp hl)]
        rfl

end store

/-! ## The claims about the store -/

section StoreClaims

open store

variable {U : Type}

/-- C1, as the code has it: for every store `ms` whose map is made (not the
nil map of the zero value) and every generated identifier `u` whose string
form is not a key of `ms`, `CreateRisk` returns, with a nil error, the record
made of `u` and the three arguments; the new map has that record under the
string form of `u` and is otherwise the old map (one entry more, every old
record still there and unchanged); and in a store reachable from
`NewMemoryStore` the new ID differs from the ID of every record already held. -/
theorem C1_createRisk_returns_and_stores (lib : UUIDLib U) (ms : MemoryStore U) (u : U)
    (state title desc : String) (hmade : ms.riskMap ≠ RiskMap.nil)
    (hu : lib.toStr u ∉ ms.riskMap.keys) :
    ms.CreateRisk lib u state title desc
        = Call.ret { ID := u, State := state, Title := title, Description := desc } none
            (ms.CreateRisk lib u state title desc).store
    ∧ (∀ k, (ms.CreateRisk lib u state title desc).store.riskMap.lookup k
          = if k = lib.toStr u then
              some { ID := u, State := state, Title := title, Description := desc }
            else ms.riskMap.lookup k)
    ∧ (ms.CreateRisk lib u state title desc).store.riskMap.entries
        = ⟨lib.toStr u, { ID := u, State := state, Title := title, Description := desc }⟩
            :: ms.riskMap.entries
    ∧ (∀ k r, ms.riskMap.lookup k = some r →
          (ms.CreateRisk lib u state title desc).store.riskMap.lookup k = some r)
    ∧ (Reachable lib ms → ∀ k r, ms.riskMap.lookup k = some r → r.ID ≠ u) := by
  have hl : ms.riskMap.lookup (lib.toStr u) = none := (not_mem_keys_iff ms _).mp hu
  rcases createRisk_cases lib ms u state title desc with
    ⟨hn, _⟩ | ⟨r0, hr0, _⟩ | ⟨m, hm, hlm, hc⟩
  · exact absurd hn hmade
  · rw [hl] at hr0
    cases hr0
  · refine ⟨?_, ?_, ?_, ?_, ?_⟩
    · rw [hc]
      rfl
    · intro k
      rw [hc, hm]
      exact lookup_made_insert m _ _ k
    · rw [hc, hm]
      exact AList.insert_entries_of_neg (AList.lookup_eq_none.mp hlm)
    · intro k r hk
      exact lookup_kept_by_create lib ms u state title desc k r hk
    · intro hreach k r hk hid
      have hkey := wellKeyed_of_reachable lib ms hreach k r hk
      rw [hkey, hid, hl] at hk
      cases hk

/-- C1 at the second record of the test setup: identifier 2 is fresh in the
store that holds record 1. -/
theorem C1_createRisk_returns_and_stores_witness :
    (NewMemoryStore.CreateRisk demo.lib 1 "open" "Risk 1" "Risk 1 description").store.CreateRisk
        demo.lib 2 "closed" "" ""
      = Call.ret { ID := 2, State := "closed", Title := "", Description := "" } none
          ((NewMemoryStore.CreateRisk demo.lib 1 "open" "Risk 1"
              "Risk 1 description").store.CreateRisk demo.lib 2 "closed" "" "").store :=
  (C1_createRisk_returns_and_stores demo.lib
    (NewMemoryStore.CreateRisk demo.lib 1 "open" "Risk 1" "Risk 1 description").store
    2 "closed" "" "" (by simp [NewMemoryStore, MemoryStore.CreateRisk, RiskMap.lookup, Call.store])
    (by decide)).1

/-- C1 as stated fails on the zero value `MemoryStore{}`: identifier 1 is not
a key of its nil map, and `CreateRisk` does not return a record with a nil
error, it panics on the assignment to the nil map. -/
theorem C1_zero_value_createRisk_panics :
    demo.lib.toStr 1 ∉ (MemoryStore.zero : MemoryStore Nat).riskMap.keys
    ∧ (MemoryStore.zero : MemoryStore Nat).CreateRisk demo.lib 1 "open" "Risk 1"
          "Risk 1 description"
        = Call.panics MemoryStore.zero
    ∧ ¬ ∃ (r : Risk Nat) (ms1 : MemoryStore Nat),
        (MemoryStore.zero : MemoryStore Nat).CreateRisk demo.lib 1 "open" "Risk 1"
          "Risk 1 description" = Call.ret r none ms1 := by
  refine ⟨by decide, rfl, ?_⟩
  rintro ⟨r, ms1, h⟩
  have hp : (MemoryStore.zero : MemoryStore Nat).CreateRisk demo.lib 1 "open" "Risk 1"
      "Risk 1 description" = Call.panics MemoryStore.zero := rfl
  rw [hp] at h
  cases h

/-- C2: whenever `CreateRisk` returns a record `r` with a nil error, `GetRisk`
of the string form of `r.ID` on the resulting store returns `r` itself (all
four fields) with a nil error, and leaves the store as it is. -/
theorem C2_getRisk_after_createRisk (lib : UUIDLib U) (ms ms1 : MemoryStore U) (u : U)
    (state title desc : String) (r : Risk U)
    (h : ms.CreateRisk lib u state title desc = Call.ret r none ms1) :
    ms1.GetRisk lib (lib.toStr r.ID) = Call.ret r none ms1 := by
  rcases createRisk_cases lib ms u state title desc with
    ⟨_, hc⟩ | ⟨r0, _, hc⟩ | ⟨m, hm, hl, hc⟩
  · rw [hc] at h
    cases h
  · rw [hc] at h
    cases h
  · rw [hc] at h
    cases h
    simp [MemoryStore.GetRisk, RiskMap.lookup, AList.lookup_insert]

/-- C2 at the first record of the test setup. -/
theorem C2_getRisk_after_createRisk_witness :
    (NewMemoryStore.CreateRisk demo.lib 1 "open" "Risk 1" "Risk 1 description").store.GetRisk
        demo.lib (demo.lib.toStr 1)
      = Call.ret { ID := 1, State := "open", Title := "Risk 1",
                   Description := "Risk 1 description" } none
          (NewMemoryStore.CreateRisk demo.lib 1 "open" "Risk 1" "Risk 1 description").store :=
  C2_getRisk_after_createRisk demo.lib NewMemoryStore _ 1 "open" "Risk 1" "Risk 1 description"
    { ID := 1, State := "open", Title := "Risk 1", Description := "Risk 1 description" } rfl

/-- C3: after any sequence of `CreateRisk` calls on a new store that all
returned a nil error, `GetRiskList` returns a nil error and a list with one
record per call, a permutation of the records the calls returned, each of
which is made of its call's identifier and arguments; the store is left as it
is, and with no call at all the list is empty. -/
theorem C3_getRiskList_after_creates (lib : UUIDLib U) (calls : List (CreateCall U))
    (ord : RangeOrder U)
    (hok : ∀ res ∈ (runCreates lib NewMemoryStore calls).1, res.ok.isSome = true) :
    (runCreates lib NewMemoryStore calls).2.GetRiskList ord
        = Call.ret
            ((ord.visit (runCreates lib NewMemoryStore calls).2.riskMap.entries).map
              (fun kv => kv.2))
            none (runCreates lib NewMemoryStore calls).2
    ∧ ((ord.visit (runCreates lib NewMemoryStore calls).2.riskMap.entries).map
          (fun kv => kv.2)).length = calls.length
    ∧ ((ord.visit (runCreates lib NewMemoryStore calls).2.riskMap.entries).map
          (fun kv => kv.2)).Perm
        ((runCreates lib NewMemoryStore calls).1.filterMap Call.ok)
    ∧ (runCreates lib NewMemoryStore calls).1.map Call.ok
        = calls.map (fun c =>
            some { ID := c.newID, State := c.state, Title := c.title, Description := c.desc })
    ∧ (NewMemoryStore : MemoryStore U).GetRiskList ord = Call.ret [] none NewMemoryStore := by
  obtain ⟨h1, h2⟩ := runCreates_ok lib calls NewMemoryStore ∅ rfl hok
  have hperm : ((ord.visit (runCreates lib NewMemoryStore calls).2.riskMap.entries).map
      (fun kv => kv.2)).Perm (calls.map (fun c => c.risk)) := by
    refine ((ord.perm _).map _).trans ?_
    rw [h2, AList.empty_entries, List.append_nil, List.map_reverse, List.map_map]
    exact List.reverse_perm _
  have hfm : (runCreates lib NewMemoryStore calls).1.filterMap Call.ok
      = calls.map (fun c => c.risk) := by
    have hid : (runCreates lib NewMemoryStore calls).1.filterMap Call.ok
        = ((runCreates lib NewMemoryStore calls).1.map Call.ok).filterMap id := by
      rw [List.filterMap_map]
      rfl
    rw [hid, h1, List.filterMap_map]
    exact filterMap_some (fun c : CreateCall U => c.risk) calls
  refine ⟨getRiskList_eq _ ord, ?_, ?_, ?_, ?_⟩
  · simpa using hperm.length_eq
  · rw [hfm]
    exact hperm
  · rw [h1]
    rfl
  · rw [getRiskList_eq]
    have hnil := (ord.perm ([] : List (Σ _ : String, Risk U))).eq_nil
    simp [NewMemoryStore, RiskMap.entries, hnil]

/-- C3 at the two creates of the test setup. -/
theorem C3_getRiskList_after_creates_witness :
    ((demo.inOrder.visit demo.seeded.riskMap.entries).map (fun kv => kv.2)).length = 2 :=
  (C3_getRiskList_after_creates demo.lib demo.seedCalls demo.inOrder (by decide)).2.1

/-- C7: in every store reachable from `NewMemoryStore` by `CreateRisk` calls,
whatever identifiers were generated, each key is the string form of the ID of
the record under it, so records under different keys have different IDs; a
`CreateRisk` whose generated identifier is already a key returns the zero
`Risk` with `ErrAlreadyExists` and the same store; and `CreateRisk` ends
otherwise than by returning a record with a nil error only then. -/
theorem C7_keys_are_ids_and_collision (lib : UUIDLib U) (ms : MemoryStore U)
    (h : Reachable lib ms) :
    (∀ k r, ms.riskMap.lookup k = some r → k = lib.toStr r.ID)
    ∧ (∀ k1 k2 r1 r2, k1 ≠ k2 → ms.riskMap.lookup k1 = some r1 →
          ms.riskMap.lookup k2 = some r2 → r1.ID ≠ r2.ID)
    ∧ (∀ u state title desc, lib.toStr u ∈ ms.riskMap.keys →
          ms.CreateRisk lib u state title desc
            = Call.ret { ID := lib.Nil, State := "", Title := "", Description := "" }
                (some Err.ErrAlreadyExists) ms)
    ∧ (∀ u state title desc, (ms.CreateRisk lib u state title desc).ok = none →
          lib.toStr u ∈ ms.riskMap.keys) := by
  have hwk := wellKeyed_of_reachable lib ms h
  have hmade := made_of_reachable lib ms h
  refine ⟨hwk, ?_, ?_, ?_⟩
  · intro k1 k2 r1 r2 hne h1 h2 hid
    apply hne
    rw [hwk k1 r1 h1, hwk k2 r2 h2, hid]
  · intro u state title desc hmem
    cases hl : ms.riskMap.lookup (lib.toStr u) with
    | none => exact absurd hmem ((not_mem_keys_iff ms _).mpr hl)
    | some r0 => exact createRisk_taken lib ms u state title desc r0 hl
  · intro u state title desc herr
    rcases createRisk_cases lib ms u state title desc with
      ⟨hn, _⟩ | ⟨r0, hr0, _⟩ | ⟨m, _, _, hc⟩
    · exact absurd hn hmade
    · by_contra hk
      rw [(not_mem_keys_iff ms _).mp hk] at hr0
      cases hr0
    · rw [hc] at herr
      simp [Call.ok] at herr

/-- C7 at the seeded store of the test setup: a third create whose generator
repeats identifier 1 is refused and the store stays as it is. -/
theorem C7_keys_are_ids_and_collision_witness :
    demo.seeded.CreateRisk demo.lib 1 "accepted" "Risk 3" "Risk 3 description"
      = Call.ret { ID := 0, State := "", Title := "", Description := "" }
          (some Err.ErrAlreadyExists) demo.seeded :=
  (C7_keys_are_ids_and_collision demo.lib demo.seeded
    (Reachable.create _ 2 "closed" "" ""
      (Reachable.create _ 1 "open" "Risk 1" "Risk 1 description" Reachable.new))).2.2.1
    1 "accepted" "Risk 3" "Risk 3 description" (by decide)

end StoreClaims

/-! ## Properties of the handler layer -/

namespace server

open store

variable {U : Type}

theorem errResponse_new (msg : String) (code : Nat) :
    errResponse ResponseWriter.new msg code = reply code (Chunk.text (errorBody msg)) := rfl

theorem jsonResponse_new (v : Payload) (code : Nat) :
    jsonResponse ResponseWriter.new v code false = reply code (Chunk.json v.marshal) := rfl

theorem jsonResponse_new_status (v : Payload) (code : Nat) (encErr : Bool) :
    (jsonResponse ResponseWriter.new v code encErr).status = some code := by
  cases encErr <;> rfl

theorem invalidMessage_eq :
    invalidMessage = "state must be one of [open, closed, accepted, investigating]" := by
  decide

theorem contains_states (x : String) : states.contains x = true ↔ x ∈ states := by
  simp

theorem empty_not_state : "" ∉ states := by decide

/-- The create handler rejects a decoded input whose state is not enumerated
without looking at the store interface. -/
theorem serve_post_rejected {σ : Type} (lib : UUIDLib U) (rs : RiskStore σ U) (encErr : Bool)
    (i : input) (s : σ) (h : i.State ∉ states) :
    serve lib rs encErr (Request.postRisk (Decoded.ok i)) s
      = Exec.done
          (reply StatusBadRequest
            (Chunk.text (errorBody (if i.State = "" then "state required" else invalidMessage))))
          s := by
  have hc : states.contains i.State = false := by
    cases hb : states.contains i.State with
    | false => rfl
    | true => exact absurd ((contains_states _).mp hb) h
  by_cases he : i.State = ""
  · simp [serve, route, requestLogger, dontPanic, handleCreateRisk, he, errResponse_new]
  · simp [serve, route, requestLogger, dontPanic, handleCreateRisk, he, h, errResponse_new]

/-- The create handler on an enumerated state: what happens is decided by the
store's `CreateRisk`. -/
theorem serve_post_accepted {σ : Type} (lib : UUIDLib U) (rs : RiskStore σ U) (encErr : Bool)
    (i : input) (s : σ) (h : i.State ∈ states) :
    serve lib rs encErr (Request.postRisk (Decoded.ok i)) s
      = match rs.CreateRisk s i.State i.Title i.Description with
        | Call.panics s1 =>
          Exec.done (httpError ResponseWriter.new "internal server error"
            StatusInternalServerError) s1
        | Call.ret _ (some _) s1 =>
          Exec.done (reply StatusInternalServerError
            (Chunk.text (errorBody "internal server error"))) s1
        | Call.ret out none s1 =>
          Exec.done (jsonResponse ResponseWriter.new (Payload.one (toRisk lib out))
            StatusCreated encErr) s1 := by
  have hc : states.contains i.State = true := (contains_states _).mpr h
  have he : i.State ≠ "" := fun he => empty_not_state (he ▸ h)
  simp only [serve, route, requestLogger, dontPanic, handleCreateRisk, he, hc, if_false,
    Bool.not_true, Bool.false_eq_true]
  cases rs.CreateRisk s i.State i.Title i.Description with
  | panics s1 => rfl
  | ret out err s1 =>
    cases err with
    | none => rfl
    | some e => rfl

theorem serve_get_unparsed {σ : Type} (lib : UUIDLib U) (rs : RiskStore σ U) (encErr : Bool)
    (id : String) (s : σ) (h : lib.Parse id = none) :
    serve lib rs encErr (Request.getRisk id) s
      = Exec.done (reply StatusBadRequest (Chunk.text (errorBody "invalid risk id"))) s := by
  simp [serve, route, requestLogger, dontPanic, handleGetRisk, h, errResponse_new]

theorem serve_get_parsed {σ : Type} (lib : UUIDLib U) (rs : RiskStore σ U) (encErr : Bool)
    (id : String) (uid : U) (s : σ) (h : lib.Parse id = some uid) :
    serve lib rs encErr (Request.getRisk id) s
      = match rs.GetRisk s (lib.toStr uid) with
        | Call.panics s1 =>
          Exec.done (httpError ResponseWriter.new "internal server error"
            StatusInternalServerError) s1
        | Call.ret _ (some _) s1 =>
          Exec.done (reply StatusNotFound (Chunk.text (errorBody "risk not found"))) s1
        | Call.ret out none s1 =>
          Exec.done (jsonResponse ResponseWriter.new (Payload.one (toRisk lib out))
            StatusOK encErr) s1 := by
  simp only [serve, route, requestLogger, dontPanic, handleGetRisk, h]
  cases rs.GetRisk s (lib.toStr uid) with
  | panics s1 => rfl
  | ret out err s1 =>
    cases err with
    | none => rfl
    | some e => rfl

theorem serve_list {σ : Type} (lib : UUIDLib U) (rs : RiskStore σ U) (encErr : Bool) (s : σ) :
    serve lib rs encErr Request.getRiskList s
      = match rs.GetRiskList s with
        | Call.panics s1 =>
          Exec.done (httpError ResponseWriter.new "internal server error"
            StatusInternalServerError) s1
        | Call.ret _ (some _) s1 =>
          Exec.done (reply StatusInternalServerError
            (Chunk.text (errorBody "internal server error"))) s1
        | Call.ret risks none s1 =>
          Exec.done (jsonResponse ResponseWriter.new (Payload.many (risks.map (toRisk lib)))
            StatusOK encErr) s1 := by
  simp only [serve, route, requestLogger, dontPanic, handleGetRiskList]
  cases rs.GetRiskList s with
  | panics s1 => rfl
  | ret risks err s1 =>
    cases err with
    | none => simp [foldl_append_singleton]
    | some e => rfl
theorem serveMem_post_store (lib : UUIDLib U) (ms : MemoryStore U) (i : input) (env : Env U)
    (h : i.State ∈ states) :
    (serveMem lib ms (Request.postRisk (Decoded.ok i), env)).store
      = (ms.CreateRisk lib env.newID i.State i.Title i.Description).store := by
  unfold serveMem
  rw [serve_post_accepted _ _ _ _ _ h]
  simp only [memoryStore]
  generalize ms.CreateRisk lib env.newID i.State i.Title i.Description = c
  cases c with
  | panics s1 => rfl
  | ret out err s1 => cases err <;> rfl

theorem serveMem_post_fresh (lib : UUIDLib U) (ms : MemoryStore U)
    (m : AList (fun _ : String => Risk U)) (i : input) (env : Env U)
    (h : i.State ∈ states) (hm : ms.riskMap = RiskMap.made m)
    (hu : m.lookup (lib.toStr env.newID) = none) :
    serveMem lib ms (Request.postRisk (Decoded.ok i), env)
      = Exec.done
          (jsonResponse ResponseWriter.new
            (Payload.one (toRisk lib ⟨env.newID, i.State, i.Title, i.Description⟩))
            StatusCreated env.encErr)
          { riskMap := RiskMap.made (m.insert (lib.toStr env.newID)
              ⟨env.newID, i.State, i.Title, i.Description⟩) } := by
  unfold serveMem
  rw [serve_post_accepted _ _ _ _ _ h]
  simp only [memoryStore]
  rw [createRisk_fresh lib ms m env.newID i.State i.Title i.Description hm hu]

theorem serveMem_post_nil (lib : UUIDLib U) (ms : MemoryStore U) (i : input) (env : Env U)
    (h : i.State ∈ states) (hm : ms.riskMap = RiskMap.nil) :
    serveMem lib ms (Request.postRisk (Decoded.ok i), env)
      = Exec.done
          (httpError ResponseWriter.new "internal server error" StatusInternalServerError)
          ms := by
  unfold serveMem
  rw [serve_post_accepted _ _ _ _ _ h]
  simp only [memoryStore]
  rw [createRisk_nil lib ms env.newID i.State i.Title i.Description hm]

theorem serveMem_get (lib : UUIDLib U) (ms : MemoryStore U) (id : String) (uid : U)
    (env : Env U) (h : lib.Parse id = some uid) :
    serveMem lib ms (Request.getRisk id, env)
      = match ms.riskMap.lookup (lib.toStr uid) with
        | none =>
          Exec.done (reply StatusNotFound (Chunk.text (errorBody "risk not found"))) ms
        | some r =>
          Exec.done (jsonResponse ResponseWriter.new (Payload.one (toRisk lib r))
            StatusOK env.encErr) ms := by
  unfold serveMem
  rw [serve_get_parsed _ _ _ _ _ _ h]
  simp only [memoryStore, MemoryStore.GetRisk]
  cases ms.riskMap.lookup (lib.toStr uid) <;> rfl

theorem serveMem_list (lib : UUIDLib U) (ms : MemoryStore U) (env : Env U) :
    serveMem lib ms (Request.getRiskList, env)
      = Exec.done
          (jsonResponse ResponseWriter.new
            (Payload.many ((env.ord.visit ms.riskMap.entries).map (fun kv => toRisk lib kv.2)))
            StatusOK env.encErr) ms := by
  unfold serveMem
  rw [serve_list]
  simp only [memoryStore, getRiskList_eq, List.map_map]
  rfl

/-- The store after one request: only a create with an enumerated state can
change it, and then it is what `CreateRisk` leaves. -/
theorem serveMem_store (lib : UUIDLib U) (ms : MemoryStore U) (ev : Request × Env U) :
    (serveMem lib ms ev).store = ms
    ∨ ∃ i, ev.1 = Request.postRisk (Decoded.ok i) ∧ i.State ∈ states
        ∧ (serveMem lib ms ev).store
            = (ms.CreateRisk lib ev.2.newID i.State i.Title i.Description).store := by
  obtain ⟨req, env⟩ := ev
  cases req with
  | getRiskList => left; rw [serveMem_list]; rfl
  | getRisk id =>
    left
    cases hp : lib.Parse id with
    | none =>
      unfold serveMem
      rw [serve_get_unparsed _ _ _ _ _ hp]
      rfl
    | some uid =>
      rw [serveMem_get _ _ _ _ _ hp]
      cases ms.riskMap.lookup (lib.toStr uid) <;> rfl
  | postRisk body =>
    cases body with
    | eof => left; rfl
    | invalid => left; rfl
    | ok i =>
      by_cases h : i.State ∈ states
      · right
        exact ⟨i, rfl, h, serveMem_post_store lib ms i env h⟩
      · left
        unfold serveMem
        rw [serve_post_rejected _ _ _ _ _ h]
        rfl

theorem statesValid_serveMem (lib : UUIDLib U) (ms : MemoryStore U) (ev : Request × Env U)
    (h : StatesValid ms) : StatesValid (serveMem lib ms ev).store := by
  rcases serveMem_store lib ms ev with hs | ⟨i, _, hi, hs⟩
  · rw [hs]; exact h
  · rw [hs]
    intro k r hk
    rcases lookup_after_create lib ms _ _ _ _ k r hk with hold | hnew
    · exact h k r hold
    · rw [hnew]; exact hi

theorem statesValid_serveAll (lib : UUIDLib U) (evs : List (Request × Env U)) :
    ∀ ms : MemoryStore U, StatesValid ms → StatesValid (serveAll lib ms evs) := by
  induction evs with
  | nil => intro ms h; exact h
  | cons ev evs ih =>
    intro ms h
    exact ih _ (statesValid_serveMem lib ms ev h)

theorem errorBody_ne_plain (msg : String) : errorBody msg ≠ "internal server error\n" := by
  intro h
  have hd := congrArg String.data h
  simp [errorBody, String.data_append] at hd

theorem marshal_keys (r : risk) :
    "id" ∈ r.marshal.map Prod.fst ∧ "state" ∈ r.marshal.map Prod.fst
    ∧ ("title" ∈ r.marshal.map Prod.fst ↔ r.Title ≠ "")
    ∧ ("description" ∈ r.marshal.map Prod.fst ↔ r.Description ≠ "")
    ∧ (∀ k ∈ r.marshal.map Prod.fst,
        k = "id" ∨ k = "state" ∨ k = "title" ∨ k = "description") := by
  by_cases ht : r.Title = "" <;> by_cases hd : r.Description = "" <;>
    simp [risk.marshal, ht, hd]

theorem marshal_values (r : risk) :
    r.marshal.lookup "id" = some r.ID ∧ r.marshal.lookup "state" = some r.State
    ∧ (r.Title ≠ "" → r.marshal.lookup "title" = some r.Title)
    ∧ (r.Description ≠ "" → r.marshal.lookup "description" = some r.Description)
    ∧ (∀ k v, (k, v) ∈ r.marshal → v = "" → k = "id" ∨ k = "state") := by
  by_cases ht : r.Title = "" <;> by_cases hd : r.Description = "" <;>
    simp [risk.marshal, ht, hd, List.lookup] <;> aesop

end server

/-! ## The claims about the handler layer -/

section HandlerClaims

open store server

variable {U : Type}

/-- C4: for a request body that decodes to `i`, and whatever store
implementation `rs` the server was built over: an empty state is answered 400
with the message `state required`; a non-empty state outside the four
enumerated ones is answered 400 with the message
`state must be one of [open, closed, accepted, investigating]`; in both cases
the answer does not depend on `rs` and the store is left in the state it was
in (no method of `rs` runs); otherwise, when `rs.CreateRisk` returns a record
with a nil error, the status is 201 and the body is the JSON object of that
record's id, state, title and description. -/
theorem C4_create_handler_validation {σ : Type} (lib : UUIDLib U) (rs : RiskStore σ U)
    (i : input) (s : σ) :
    (i.State = "" → ∀ encErr,
        serve lib rs encErr (Request.postRisk (Decoded.ok i)) s
          = Exec.done (reply 400 (Chunk.text (errorBody "state required"))) s)
    ∧ (i.State ≠ "" → i.State ∉ ["open", "closed", "accepted", "investigating"] → ∀ encErr,
        serve lib rs encErr (Request.postRisk (Decoded.ok i)) s
          = Exec.done
              (reply 400 (Chunk.text
                (errorBody "state must be one of [open, closed, accepted, investigating]")))
              s)
    ∧ (i.State ∈ ["open", "closed", "accepted", "investigating"] → ∀ out s1,
        rs.CreateRisk s i.State i.Title i.Description = Call.ret out none s1 →
        (∀ encErr,
          (serve lib rs encErr (Request.postRisk (Decoded.ok i)) s).writer.status = some 201
          ∧ (serve lib rs encErr (Request.postRisk (Decoded.ok i)) s).store = s1)
        ∧ serve lib rs false (Request.postRisk (Decoded.ok i)) s
            = Exec.done
                (reply 201 (Chunk.json (Value.object
                  ([("id", lib.toStr out.ID), ("state", out.State)]
                    ++ (if out.Title = "" then [] else [("title", out.Title)])
                    ++ (if out.Description = "" then []
                        else [("description", out.Description)])))))
                s1) := by
  refine ⟨?_, ?_, ?_⟩
  · intro he encErr
    have hn : i.State ∉ states := fun h => empty_not_state (he ▸ h)
    rw [serve_post_rejected lib rs encErr i s hn, if_pos he]
    rfl
  · intro he hn encErr
    rw [serve_post_rejected lib rs encErr i s hn, if_neg he, invalidMessage_eq]
    rfl
  · intro hin out s1 hcall
    refine ⟨?_, ?_⟩
    · intro encErr
      rw [serve_post_accepted lib rs encErr i s hin, hcall]
      exact ⟨jsonResponse_new_status _ _ encErr, rfl⟩
    · rw [serve_post_accepted lib rs false i s hin, hcall]
      rfl

/-- C4 at the `missing state` test case: the body
`{"title":"Risk 4","description":"Risk 4 description"}` decodes to an input
with an empty state. -/
theorem C4_create_handler_validation_witness :
    serve demo.lib (memoryStore demo.lib 3 demo.inOrder) false
        (Request.postRisk (Decoded.ok ⟨"", "Risk 4", "Risk 4 description"⟩)) demo.seeded
      = Exec.done (reply 400 (Chunk.text (errorBody "state required"))) demo.seeded :=
  (C4_create_handler_validation demo.lib (memoryStore demo.lib 3 demo.inOrder)
    ⟨"", "Risk 4", "Risk 4 description"⟩ demo.seeded).1 rfl false

/-- C5: when the id of the path does not parse, the get handler answers 400
with the message `invalid risk id` whatever the store implementation and its
state, which it leaves as it was (no method of the store runs); when the id
parses to `uid` and the memory store holds no record for it (the string form
of `uid` is not a key, or, in a reachable store and with an injective string
form, no held record has ID `uid`), `GetRisk` returns the zero `Risk` with
`ErrNotFound`, the handler answers 404 with the message `risk not found`, and
the store is unchanged. -/
theorem C5_get_handler_errors (lib : UUIDLib U) (id : String) :
    (lib.Parse id = none → ∀ (σ : Type) (rs : RiskStore σ U) (encErr : Bool) (s : σ),
        serve lib rs encErr (Request.getRisk id) s
          = Exec.done (reply 400 (Chunk.text (errorBody "invalid risk id"))) s)
    ∧ (∀ (uid : U) (ms : MemoryStore U) (env : Env U), lib.Parse id = some uid →
        (lib.toStr uid ∉ ms.riskMap.keys
          ∨ (Reachable lib ms ∧ Function.Injective lib.toStr ∧ ¬ Holds ms uid)) →
        ms.GetRisk lib (lib.toStr uid)
            = Call.ret { ID := lib.Nil, State := "", Title := "", Description := "" }
                (some Err.ErrNotFound) ms
        ∧ serveMem lib ms (Request.getRisk id, env)
            = Exec.done (reply 404 (Chunk.text (errorBody "risk not found"))) ms) := by
  refine ⟨?_, ?_⟩
  · intro hp σ rs encErr s
    exact serve_get_unparsed lib rs encErr id s hp
  · intro uid ms env hp hunknown
    have hl : ms.riskMap.lookup (lib.toStr uid) = none := by
      rcases hunknown with hk | ⟨hreach, hinj, hno⟩
      · exact (not_mem_keys_iff ms _).mp hk
      · cases hl : ms.riskMap.lookup (lib.toStr uid) with
        | none => rfl
        | some r =>
          have hkey := wellKeyed_of_reachable lib ms hreach _ r hl
          exact absurd ⟨lib.toStr uid, r, hl, (hinj hkey).symm⟩ hno
    refine ⟨?_, ?_⟩
    · simp [MemoryStore.GetRisk, hl, zeroRisk]
    · rw [serveMem_get lib ms id uid env hp, hl]
      rfl

/-- C5 at an id that does not parse, on the seeded store of the test setup. -/
theorem C5_get_handler_errors_witness :
    serve demo.lib (memoryStore demo.lib 3 demo.inOrder) false (Request.getRisk "x")
        demo.seeded
      = Exec.done (reply 400 (Chunk.text (errorBody "invalid risk id"))) demo.seeded :=
  (C5_get_handler_errors demo.lib "x").1 (by decide) _ _ false demo.seeded

/-- Every reply with a status of 400 or more that is produced without a panic
of the store has a body of the form `{"error": "<message>"}`. -/
theorem error_reply_without_panic {σ : Type} (lib : UUIDLib U) (rs : RiskStore σ U)
    (encErr : Bool) (req : Request) (s : σ) (code : Nat) (hnp : NoPanic rs) :
    (serve lib rs encErr req s).writer.status = some code → 400 ≤ code →
    IsErrorObject (serve lib rs encErr req s).writer.body := by
  obtain ⟨hc, hg, hl⟩ := hnp
  have hjson : ∀ (v : Payload) (c : Nat), c < 400 → ∀ code : Nat,
      (jsonResponse ResponseWriter.new v c encErr).status = some code → 400 ≤ code →
      IsErrorObject (jsonResponse ResponseWriter.new v c encErr).body := by
    intro v c hc400 code hst hge
    rw [jsonResponse_new_status] at hst
    cases hst
    omega
  have herr : ∀ (msg : String) (c : Nat),
      IsErrorObject (reply c (Chunk.text (errorBody msg))).body := fun msg _ => ⟨msg, rfl⟩
  cases req with
  | postRisk body =>
    cases body with
    | eof => intro _ _; exact herr _ _
    | invalid => intro _ _; exact herr _ _
    | ok i =>
      by_cases hin : i.State ∈ states
      · rw [serve_post_accepted lib rs encErr i s hin]
        cases hcall : rs.CreateRisk s i.State i.Title i.Description with
        | panics s1 => exact absurd hcall (hc _ _ _ _ _)
        | ret out err s1 =>
          cases err with
          | some e => intro _ _; exact herr _ _
          | none => exact hjson _ 201 (by decide) code
      · rw [serve_post_rejected lib rs encErr i s hin]
        intro _ _; exact herr _ _
  | getRiskList =>
    rw [serve_list]
    cases hcall : rs.GetRiskList s with
    | panics s1 => exact absurd hcall (hl _ _)
    | ret out err s1 =>
      cases err with
      | some e => intro _ _; exact herr _ _
      | none => exact hjson _ 200 (by decide) code
  | getRisk id =>
    cases hp : lib.Parse id with
    | none =>
      rw [serve_get_unparsed lib rs encErr id s hp]
      intro _ _; exact herr _ _
    | some uid =>
      rw [serve_get_parsed lib rs encErr id uid s hp]
      cases hcall : rs.GetRisk s (lib.toStr uid) with
      | panics s1 => exact absurd hcall (hg _ _ _)
      | ret out err s1 =>
        cases err with
        | some e => intro _ _; exact herr _ _
        | none => exact hjson _ 200 (by decide) code

/-- C8 (the code departs from it): a server built over the zero value
`&store.MemoryStore{}` answers `POST /v1/risk` with body `{"state":"open"}`
through the recovery of `dontPanic`: status 500, content type
`text/plain; charset=utf-8` and the body `internal server error` followed by a
newline, which is not an object `{"error": "<message>"}`; the embedded
`MemoryStore.CreateRisk` on the zero value `MemoryStore.zero` gives the same
reply, whatever identifier is generated. -/
theorem C8_recovered_panic_is_plain_text (lib : UUIDLib U) (encErr : Bool) :
    serve lib (demo.zeroMemoryStore lib) encErr
        (Request.postRisk (Decoded.ok ⟨"open", "", ""⟩)) ()
      = Exec.done
          { header := [("X-Content-Type-Options", "nosniff"),
                       ("Content-Type", "text/plain; charset=utf-8")],
            status := some 500,
            sent := [("X-Content-Type-Options", "nosniff"),
                     ("Content-Type", "text/plain; charset=utf-8")],
            body := [Chunk.text "internal server error\n"] }
          ()
    ∧ ¬ IsErrorObject [Chunk.text "internal server error\n"]
    ∧ (∀ (u : U) (ord : RangeOrder U),
        serve lib (memoryStore lib u ord) encErr
            (Request.postRisk (Decoded.ok ⟨"open", "", ""⟩)) MemoryStore.zero
          = Exec.done
              { header := [("X-Content-Type-Options", "nosniff"),
                           ("Content-Type", "text/plain; charset=utf-8")],
                status := some 500,
                sent := [("X-Content-Type-Options", "nosniff"),
                         ("Content-Type", "text/plain; charset=utf-8")],
                body := [Chunk.text "internal server error\n"] }
              MemoryStore.zero) := by
  refine ⟨rfl, ?_, ?_⟩
  · rintro ⟨msg, hmsg⟩
    simp only [List.cons.injEq, Chunk.text.injEq, and_true] at hmsg
    exact errorBody_ne_plain msg hmsg.symm
  · intro u ord
    exact serveMem_post_nil lib MemoryStore.zero ⟨"open", "", ""⟩ ⟨u, ord, encErr⟩
      (by decide) rfl

/-- C9: the get, list and create handlers of a server over a memory store
answer (when the encoder does not fail; for a create, when the map of the
store is made, so that the record is stored) with the JSON object of the
record, or the array of the objects of all held records; and the object of any
record has
the keys `id` and `state` with the record's identifier string and state, the
key `title` exactly when `Title` is non-empty and `description` exactly when
`Description` is non-empty, no other key, and no optional member with an empty
value; a record with state `closed` and no title or description is written as
exactly `{"id": <id>, "state": "closed"}`. -/
theorem C9_serialized_record_shape (lib : UUIDLib U) (r : Risk U) :
    ("id" ∈ (toRisk lib r).marshal.map Prod.fst
      ∧ "state" ∈ (toRisk lib r).marshal.map Prod.fst
      ∧ ("title" ∈ (toRisk lib r).marshal.map Prod.fst ↔ r.Title ≠ "")
      ∧ ("description" ∈ (toRisk lib r).marshal.map Prod.fst ↔ r.Description ≠ "")
      ∧ (∀ k ∈ (toRisk lib r).marshal.map Prod.fst,
          k = "id" ∨ k = "state" ∨ k = "title" ∨ k = "description"))
    ∧ ((toRisk lib r).marshal.lookup "id" = some (lib.toStr r.ID)
      ∧ (toRisk lib r).marshal.lookup "state" = some r.State
      ∧ (r.Title ≠ "" → (toRisk lib r).marshal.lookup "title" = some r.Title)
      ∧ (r.Description ≠ "" →
          (toRisk lib r).marshal.lookup "description" = some r.Description)
      ∧ (∀ k v, (k, v) ∈ (toRisk lib r).marshal → v = "" → k = "id" ∨ k = "state"))
    ∧ (r.State = "closed" → r.Title = "" → r.Description = "" →
        (toRisk lib r).marshal = [("id", lib.toStr r.ID), ("state", "closed")])
    ∧ (∀ (ms : MemoryStore U) (id : String) (env : Env U),
        lib.Parse id = some r.ID → ms.riskMap.lookup (lib.toStr r.ID) = some r →
        env.encErr = false →
        serveMem lib ms (Request.getRisk id, env)
          = Exec.done (reply 200 (Chunk.json (Value.object (toRisk lib r).marshal))) ms)
    ∧ (∀ (ms : MemoryStore U) (env : Env U), env.encErr = false →
        ∃ held : List (Risk U), held.Perm (ms.riskMap.entries.map (fun kv => kv.2))
          ∧ serveMem lib ms (Request.getRiskList, env)
              = Exec.done
                  (reply 200 (Chunk.json
                    (Value.array (held.map (fun x => (toRisk lib x).marshal)))))
                  ms)
    ∧ (∀ (ms : MemoryStore U) (env : Env U),
        r.State ∈ ["open", "closed", "accepted", "investigating"] →
        ms.riskMap ≠ RiskMap.nil →
        env.newID = r.ID → lib.toStr r.ID ∉ ms.riskMap.keys → env.encErr = false →
        (serveMem lib ms (Request.postRisk (Decoded.ok ⟨r.State, r.Title, r.Description⟩),
            env)).writer
          = reply 201 (Chunk.json (Value.object (toRisk lib r).marshal))) := by
  refine ⟨marshal_keys (toRisk lib r), marshal_values (toRisk lib r), ?_, ?_, ?_, ?_⟩
  · intro hs ht hd
    simp [risk.marshal, toRisk, hs, ht, hd]
  · intro ms id env hp hl he
    rw [serveMem_get lib ms id r.ID env hp, hl, he]
    rfl
  · intro ms env he
    refine ⟨(env.ord.visit ms.riskMap.entries).map (fun kv => kv.2),
      (env.ord.perm _).map _, ?_⟩
    rw [serveMem_list, he, jsonResponse_new]
    simp [Payload.marshal, List.map_map, Function.comp_def, StatusOK]
  · intro ms env hin hmade hid hfresh he
    cases hm : ms.riskMap with
    | nil => exact absurd hm hmade
    | made m =>
      have hl : m.lookup (lib.toStr env.newID) = none := by
        have h0 := (not_mem_keys_iff ms _).mp hfresh
        rw [hm, ← hid] at h0
        exact h0
      rw [serveMem_post_fresh lib ms m _ env hin hm hl, he, hid]
      rfl

/-- C9 at the second record of the test setup (`get risk without optional
properties`): the reply to the get of its id is `{"id": "aa", "state":
"closed"}`. -/
theorem C9_serialized_record_shape_witness :
    serveMem demo.lib demo.seeded (Request.getRisk "aa", ⟨3, demo.inOrder, false⟩)
      = Exec.done
          (reply 200 (Chunk.json (Value.object [("id", "aa"), ("state", "closed")])))
          demo.seeded :=
  (C9_serialized_record_shape demo.lib ⟨2, "closed", "", ""⟩).2.2.2.1
    demo.seeded "aa" ⟨3, demo.inOrder, false⟩ (by decide) (by decide) rfl

/-- C10: after any sequence of create, get and list requests served over a
memory store that started empty, every held record has one of the states
open, closed, accepted, investigating; the next request, whatever it is,
leaves every held record under its key with all its fields; a request other
than a create whose decoded state is enumerated (a get, a list, a create that
fails validation) leaves the store exactly as it is; and a create that fails
validation is answered 400 whatever the store implementation, whose state it
does not touch. -/
theorem C10_states_enumerated_records_fixed (lib : UUIDLib U)
    (evs : List (Request × Env U)) (ev : Request × Env U) :
    (∀ k r, (serveAll lib NewMemoryStore evs).riskMap.lookup k = some r →
        r.State ∈ ["open", "closed", "accepted", "investigating"])
    ∧ (∀ k r, (serveAll lib NewMemoryStore evs).riskMap.lookup k = some r →
        (serveMem lib (serveAll lib NewMemoryStore evs) ev).store.riskMap.lookup k = some r)
    ∧ ((∀ i, ev.1 = Request.postRisk (Decoded.ok i) →
          i.State ∉ ["open", "closed", "accepted", "investigating"]) →
        (serveMem lib (serveAll lib NewMemoryStore evs) ev).store
          = serveAll lib NewMemoryStore evs)
    ∧ (∀ (σ : Type) (rs : RiskStore σ U) (encErr : Bool) (body : Decoded) (s : σ),
        (∀ i, body = Decoded.ok i →
          i.State ∉ ["open", "closed", "accepted", "investigating"]) →
        ∃ msg, serve lib rs encErr (Request.postRisk body) s
          = Exec.done (reply 400 (Chunk.text (errorBody msg))) s) := by
  have hvalid : StatesValid (serveAll lib NewMemoryStore evs) :=
    statesValid_serveAll lib evs NewMemoryStore
      (fun k r hk => by simp [NewMemoryStore, RiskMap.lookup] at hk)
  refine ⟨hvalid, ?_, ?_, ?_⟩
  · intro k r hk
    rcases serveMem_store lib (serveAll lib NewMemoryStore evs) ev with hs | ⟨i, _, _, hs⟩
    · rw [hs]; exact hk
    · rw [hs]; exact lookup_kept_by_create lib _ _ _ _ _ k r hk
  · intro hno
    rcases serveMem_store lib (serveAll lib NewMemoryStore evs) ev with hs | ⟨i, hi, hin, _⟩
    · exact hs
    · exact absurd hin (hno i hi)
  · intro σ rs encErr body s hbad
    cases body with
    | eof => exact ⟨_, rfl⟩
    | invalid => exact ⟨_, rfl⟩
    | ok i => exact ⟨_, serve_post_rejected lib rs encErr i s (hbad i rfl)⟩

/-- C10 on the test run: the seeding creates served as requests, then the
`invalid state` request, which leaves the store as it is. -/
theorem C10_states_enumerated_records_fixed_witness :
    (serveMem demo.lib
        (serveAll demo.lib NewMemoryStore
          [(Request.postRisk (Decoded.ok ⟨"open", "Risk 1", "Risk 1 description"⟩),
              ⟨1, demo.inOrder, false⟩),
           (Request.postRisk (Decoded.ok ⟨"closed", "", ""⟩), ⟨2, demo.inOrder, false⟩)])
        (Request.postRisk (Decoded.ok ⟨"invalid", "", ""⟩), ⟨3, demo.inOrder, false⟩)).store
      = serveAll demo.lib NewMemoryStore
          [(Request.postRisk (Decoded.ok ⟨"open", "Risk 1", "Risk 1 description"⟩),
              ⟨1, demo.inOrder, false⟩),
           (Request.postRisk (Decoded.ok ⟨"closed", "", ""⟩), ⟨2, demo.inOrder, false⟩)] :=
  (C10_states_enumerated_records_fixed demo.lib _
    (Request.postRisk (Decoded.ok ⟨"invalid", "", ""⟩), ⟨3, demo.inOrder, false⟩)).2.2.1
    (fun i hi => by cases hi; decide)

end HandlerClaims

end Arctos